import Mathlib

/-!
Verification of `AbstractSecurityConfig` (src/starlite/security/base.py) and the
SQLAlchemy to-do tutorial example
(src/docs/examples/contrib/sqlalchemy/plugins/tutorial/full_app_with_session_di.py),
as a shallow embedding: Python in-place mutation becomes explicit state passing,
Python dictionaries become association lists, and opaque framework objects
(middleware, guards, providers, OpenAPI components, type-encoder maps) become
wrapper types carrying an identifier.
-/

namespace Starlite

/-- Opaque `DefineMiddleware` value produced by the config's abstract `middleware`
property. -/
structure DefineMiddleware where
  id : Nat
deriving DecidableEq, Repr

/-- Opaque guard callable (`Guard`). -/
structure Guard where
  id : Nat
deriving DecidableEq, Repr

/-- Opaque dependency provider (`Provide`). -/
structure Provide where
  id : Nat
deriving DecidableEq, Repr

/-- Opaque route handler (`ControllerRouterHandler`). -/
structure ControllerRouterHandler where
  id : Nat
deriving DecidableEq, Repr

/-- Opaque OpenAPI `Components` object.  A pydantic model object defines neither
`__bool__` nor `__len__`, so a `Components` value is always truthy in Python. -/
structure Components where
  id : Nat
deriving DecidableEq, Repr

/-- An OpenAPI 3.1 `SecurityRequirement`: a dictionary mapping scheme names to
lists of scopes. -/
abbrev SecurityRequirement := List (String × List String)

/-- Opaque `TypeEncodersMap` value. -/
structure TypeEncodersMap where
  id : Nat
deriving DecidableEq, Repr

/-- The `components` attribute of an `OpenAPIConfig`: `None`, a single
`Components` object, or a list of them (`Components | list[Components] | None`). -/
inductive ComponentsField where
  | none
  | single (c : Components)
  | list (cs : List Components)
deriving DecidableEq, Repr

/-- The slice of `OpenAPIConfig` that `on_app_init` reads and writes
(`components` and `security`), plus `rest` standing for every other attribute,
which `copy()` copies and `on_app_init` leaves alone. -/
structure OpenAPIConfig where
  components : ComponentsField
  security : Option (List SecurityRequirement)
  rest : Nat
deriving DecidableEq, Repr

/-- The slice of `AppConfig` that `on_app_init` touches, plus `rest` standing
for every other attribute of the application configuration. -/
structure AppConfig where
  middleware : List DefineMiddleware
  openapi_config : Option OpenAPIConfig
  guards : List Guard
  dependencies : List (String × Provide)
  route_handlers : List ControllerRouterHandler
  type_encoders : Option TypeEncodersMap
  rest : Nat
deriving DecidableEq, Repr

/-- A user-supplied `retrieve_user_handler` callable, tagged by whether the user
wrote it as a sync or an async callable. -/
inductive UserCallable where
  | sync (id : Nat)
  | async (id : Nat)
deriving DecidableEq, Repr

/-- Modelled from the spec: `AsyncCallable` (from `starlite.utils.sync`, not in
the sources) wraps a sync or async callable into an async wrapper; the stored
handler is either still the raw user callable or that wrapper around it. -/
inductive StoredHandler where
  | raw (f : UserCallable)
  | asyncCallable (h : StoredHandler)
deriving DecidableEq, Repr

/-- The state of an `AbstractSecurityConfig` instance: every dataclass field of
the class, with the three abstract properties (`openapi_components`,
`security_requirement`, `middleware`) represented by the values a concrete
subclass would return for them. -/
structure AbstractSecurityConfig where
  authentication_middleware_class : Nat
  guards : Option (List Guard)
  exclude : Option (String ⊕ List String)
  exclude_opt_key : String
  scopes : Option (List String)
  route_handlers : Option (List ControllerRouterHandler)
  dependencies : Option (List (String × Provide))
  retrieve_user_handler : StoredHandler
  type_encoders : Option TypeEncodersMap
  openapi_components : Components
  security_requirement : SecurityRequirement
  middleware : DefineMiddleware
deriving DecidableEq, Repr

/-- Python truthiness of `self.guards` / `self.route_handlers`
(`Iterable | None`): `None` and the empty list are falsy. -/
def truthyOptList {α : Type} (o : Option (List α)) : Bool :=
  match o with
  | Option.none => false
  | Option.some l => !l.isEmpty

/-- Python `dict.update` applied for a single key: if the key is present its
value is replaced in place, otherwise the pair is appended at the end. -/
def dictSet {α : Type} (d : List (String × α)) (k : String) (v : α) :
    List (String × α) :=
  if d.any (fun p => p.1 = k) then
    d.map (fun p => if p.1 = k then (k, v) else p)
  else
    d ++ [(k, v)]

/-- Python `dict.update(other)`: apply `dictSet` for every pair of `other` in
order. -/
def dictUpdate {α : Type} (d other : List (String × α)) : List (String × α) :=
  other.foldl (fun acc p => dictSet acc p.1 p.2) d

/-- Python `dict.get`-style lookup: value of the first matching key. -/
def dictGet {α : Type} (d : List (String × α)) (k : String) : Option α :=
  match d.find? (fun p => p.1 = k) with
  | Option.none => Option.none
  | Option.some p => Option.some p.2

/-- `copy(app_config.openapi_config)` followed by the component/security merge
of `on_app_init` lines 86-97: `components` gets `self.openapi_components`
appended if it is a list, becomes the two-element list `[new, old]` if it is a
single (hence truthy) object, and becomes `[new]` if it is `None`; `security`
gets `self.security_requirement` appended if it is a list and becomes
`[self.security_requirement]` otherwise. -/
def mergeOpenAPIConfig (self : AbstractSecurityConfig) (oc : OpenAPIConfig) :
    OpenAPIConfig :=
  let oc := { oc with
    components :=
      match oc.components with
      | ComponentsField.list cs =>
          ComponentsField.list (cs ++ [self.openapi_components])
      | ComponentsField.single c =>
          ComponentsField.list [self.openapi_components, c]
      | ComponentsField.none =>
          ComponentsField.list [self.openapi_components] }
  { oc with
    security :=
      match oc.security with
      | Option.some l => Option.some (l ++ [self.security_requirement])
      | Option.none => Option.some [self.security_requirement] }

/-- The result of `on_app_init`: the final state of the security config (it may
set its own `type_encoders`), the final state of the `app_config` argument, and
the value the method returns. -/
structure OnAppInitResult where
  self : AbstractSecurityConfig
  app_config : AppConfig
  ret : AppConfig
deriving DecidableEq, Repr

/-- `AbstractSecurityConfig.on_app_init` (src/starlite/security/base.py lines
73-111), with the in-place mutation of `app_config` and `self` made explicit:
inserts the middleware at index 0, merges the OpenAPI config when it is truthy,
extends guards / updates dependencies / extends route handlers when the
corresponding config field is truthy, adopts `app_config.type_encoders` when
`self.type_encoders` is `None`, and returns `app_config`. -/
def on_app_init (self : AbstractSecurityConfig) (app_config : AppConfig) :
    OnAppInitResult :=
  let app_config := { app_config with
    middleware := self.middleware :: app_config.middleware }
  let app_config :=
    match app_config.openapi_config with
    | Option.some oc =>
        { app_config with
          openapi_config := Option.some (mergeOpenAPIConfig self oc) }
    | Option.none => app_config
  let app_config :=
    if truthyOptList self.guards then
      { app_config with guards := app_config.guards ++ self.guards.getD [] }
    else app_config
  let app_config :=
    if truthyOptList self.dependencies then
      { app_config with
        dependencies :=
          dictUpdate app_config.dependencies (self.dependencies.getD []) }
    else app_config
  let app_config :=
    if truthyOptList self.route_handlers then
      { app_config with
        route_handlers :=
          app_config.route_handlers ++ self.route_handlers.getD [] }
    else app_config
  let self :=
    if self.type_encoders.isNone then
      { self with type_encoders := app_config.type_encoders }
    else self
  { self := self, app_config := app_config, ret := app_config }

/-- The slice of a `Response` object that `create_response` determines. -/
structure ResponseModel where
  content : Option Nat
  status_code : Nat
  media_type : String
  headers : Option (List (String × String))
  cookies : Option (List String)
  type_encoders : Option TypeEncodersMap
deriving DecidableEq, Repr

/-- `AbstractSecurityConfig.create_response` (lines 113-143): builds a
`Response` from the given arguments and the stored `self.type_encoders`. -/
def create_response (self : AbstractSecurityConfig) (content : Option Nat)
    (status_code : Nat) (media_type : String)
    (headers : Option (List (String × String)))
    (cookies : Option (List String)) : ResponseModel :=
  { content := content
    status_code := status_code
    media_type := media_type
    headers := headers
    cookies := cookies
    type_encoders := self.type_encoders }

/-- `AbstractSecurityConfig.__post_init__` (lines 145-146): rebinds
`retrieve_user_handler` to `AsyncCallable(self.retrieve_user_handler)`. -/
def post_init (self : AbstractSecurityConfig) : AbstractSecurityConfig :=
  { self with
    retrieve_user_handler :=
      StoredHandler.asyncCallable self.retrieve_user_handler }

end Starlite

namespace TodoApp

/-- A row of the `todo_items` table: `title` is the primary key, `done` the
completion flag. -/
structure TodoItem where
  title : String
  done : Bool
deriving DecidableEq, Repr

/-- A `select(TodoItem)` query with the `.where` clauses the example attaches:
an optional equality filter on `title` and an optional `is_` filter on `done`. -/
structure Query where
  whereTitle : Option String
  whereDone : Option Bool
deriving DecidableEq, Repr

/-- `select(TodoItem)` with no clauses. -/
def selectTodo : Query := { whereTitle := Option.none, whereDone := Option.none }

/-- A row satisfies every attached clause.  `Column.is_(b)` on the non-nullable
boolean column is equality with `b`. -/
def Query.matches (q : Query) (t : TodoItem) : Bool :=
  (match q.whereTitle with
   | Option.none => true
   | Option.some s => t.title = s) &&
  (match q.whereDone with
   | Option.none => true
   | Option.some b => t.done = b)

/-- `session.execute(query)` over the session's store: the rows satisfying the
query, in store order. -/
def Query.run (q : Query) (store : List TodoItem) : List TodoItem :=
  store.filter q.matches

/-- SQLAlchemy exceptions the example interacts with. -/
inductive DBError where
  | noResultFound
  | multipleResultsFound
deriving DecidableEq, Repr

/-- `Result.scalar_one()`: the unique row, `NoResultFound` on zero rows,
`MultipleResultsFound` on more than one. -/
def scalar_one (rows : List TodoItem) : Except DBError TodoItem :=
  match rows with
  | [] => Except.error DBError.noResultFound
  | [t] => Except.ok t
  | _ => Except.error DBError.multipleResultsFound

/-- The single-quote character. -/
def singleQuote : Char := Char.ofNat 39

/-- The double-quote character. -/
def doubleQuote : Char := Char.ofNat 34

/-- Escape one character of a Python string `repr` quoted with `quote`. -/
def pyReprChar (quote : Char) (c : Char) : String :=
  if c = '\\' then "\\\\"
  else if c = quote then "\\" ++ String.singleton quote
  else if c = '\n' then "\\n"
  else if c = '\r' then "\\r"
  else if c = '\t' then "\\t"
  else String.singleton c

/-- Python `repr` of a string: quoted with single quotes, or with double quotes
when the string contains a single quote but no double quote; backslashes, the
quoting character and common control characters are escaped. -/
def pyRepr (s : String) : String :=
  let quote : Char :=
    if s.contains singleQuote && !s.contains doubleQuote then doubleQuote
    else singleQuote
  String.singleton quote ++
    String.join (s.toList.map (pyReprChar quote)) ++ String.singleton quote

/-- Exceptions the example's handlers can raise: litestar's
`NotFoundException` with its `detail`, litestar's `ClientException` with
`status_code`, `detail` and the chained cause, or an uncaught database error. -/
inductive AppExc where
  | notFound (detail : String)
  | clientException (status_code : Nat) (detail : String) (cause : String)
  | db (e : DBError)
deriving DecidableEq, Repr

/-- `get_todo_by_title` (example lines 63-69): run
`select(TodoItem).where(TodoItem.title == todo_name)`, take `scalar_one()`,
and turn `NoResultFound` into `NotFoundException` with detail
`f"TODO {todo_name!r} not found"`; any other database error propagates. -/
def get_todo_by_title (todo_name : String) (store : List TodoItem) :
    Except AppExc TodoItem :=
  let query := { selectTodo with whereTitle := Option.some todo_name }
  match scalar_one (query.run store) with
  | Except.ok t => Except.ok t
  | Except.error DBError.noResultFound =>
      Except.error (AppExc.notFound ("TODO " ++ pyRepr todo_name ++ " not found"))
  | Except.error e => Except.error (AppExc.db e)

/-- `get_todo_list` (example lines 72-78): `select(TodoItem)`, with
`.where(TodoItem.done.is_(done))` attached when `done` is not `None`. -/
def get_todo_list (done : Option Bool) (store : List TodoItem) :
    List TodoItem :=
  let query := selectTodo
  let query :=
    if done.isSome then { query with whereDone := done } else query
  query.run store

/-- A Python value appearing in the serialized to-do dictionaries. -/
inductive PyVal where
  | str (s : String)
  | bool (b : Bool)
deriving DecidableEq, Repr

/-- The `TodoType` dictionary, as an association list. -/
abbrev TodoType := List (String × PyVal)

/-- `serialize_todo` (example lines 59-60): the dictionary
`{"title": todo.title, "done": todo.done}`. -/
def serialize_todo (todo : TodoItem) : TodoType :=
  [("title", PyVal.str todo.title), ("done", PyVal.bool todo.done)]

/-- The `GET /` handler `get_list` (example lines 81-85): serialize every item
`get_todo_list` returns. -/
def get_list (done : Option Bool) (store : List TodoItem) : List TodoType :=
  (get_todo_list done store).map serialize_todo

/-- The request body of the PUT handler: a dictionary with the new title and
done flag. -/
structure TodoData where
  title : String
  done : Bool
deriving DecidableEq, Repr

/-- The `PUT /{item_title:str}` handler `update_item` (example lines 95-102):
fetch the item by title (propagating `NotFoundException`), overwrite its
`title` and `done` attributes from the request data, and return its
serialization; the session's store reflects the in-place mutation. -/
def update_item (item_title : String) (data : TodoData)
    (store : List TodoItem) : Except AppExc (TodoType × List TodoItem) :=
  match get_todo_by_title item_title store with
  | Except.error e => Except.error e
  | Except.ok _ =>
      let updated : TodoItem := { title := data.title, done := data.done }
      Except.ok
        (serialize_todo updated,
         store.map (fun t => if t.title = item_title then updated else t))

/-- How the block `async with session.begin(): yield session` terminates while
the transaction is open: normally, with an `IntegrityError` (carrying its
`str` form), or with some other exception. -/
inductive TxOutcome where
  | success
  | integrityError (msg : String)
  | otherError (msg : String)
deriving DecidableEq, Repr

/-- What `provide_transaction` does overall: the transaction commits, or an
exception reaches the caller. -/
inductive TxResult where
  | committed
  | raised (status_code : Option Nat) (detail : String) (cause : Option String)
deriving DecidableEq, Repr

/-- `HTTP_409_CONFLICT` from `litestar.status_codes`. -/
def HTTP_409_CONFLICT : Nat := 409

/-- `provide_transaction` (example lines 47-56): an `IntegrityError` raised
while the transaction is open becomes
`ClientException(status_code=HTTP_409_CONFLICT, detail=str(exc))` chained
`from exc`; any other exception propagates unchanged; otherwise the
transaction commits. -/
def provide_transaction (outcome : TxOutcome) : TxResult :=
  match outcome with
  | TxOutcome.success => TxResult.committed
  | TxOutcome.integrityError msg =>
      TxResult.raised (Option.some HTTP_409_CONFLICT) msg (Option.some msg)
  | TxOutcome.otherError msg =>
      TxResult.raised Option.none msg Option.none

end TodoApp

namespace Starlite

/-- A concrete security config used to evaluate the theorems on a concrete
input. -/
def sampleSecurityConfig : AbstractSecurityConfig :=
  { authentication_middleware_class := 0
    guards := Option.some [⟨10⟩]
    exclude := Option.none
    exclude_opt_key := "exclude_from_auth"
    scopes := Option.none
    route_handlers := Option.some [⟨20⟩]
    dependencies := Option.some [("db", ⟨7⟩)]
    retrieve_user_handler := StoredHandler.raw (UserCallable.sync 5)
    type_encoders := Option.none
    openapi_components := ⟨3⟩
    security_requirement := [("jwt", [])]
    middleware := ⟨1⟩ }

/-- A concrete OpenAPI config with a single (truthy) `components` object and no
`security` list. -/
def sampleOpenAPIConfig : OpenAPIConfig :=
  { components := ComponentsField.single ⟨9⟩
    security := Option.none
    rest := 42 }

/-- A concrete application config used to evaluate the theorems on a concrete
input. -/
def sampleAppConfig : AppConfig :=
  { middleware := [⟨100⟩]
    openapi_config := Option.some sampleOpenAPIConfig
    guards := [⟨11⟩]
    dependencies := [("repo", ⟨8⟩)]
    route_handlers := [⟨21⟩]
    type_encoders := Option.some ⟨2⟩
    rest := 7 }

end Starlite

namespace TodoApp

/-- A concrete session store used to evaluate the theorems on a concrete
input. -/
def sampleStore : List TodoItem := [⟨"buy milk", false⟩, ⟨"walk dog", true⟩]

end TodoApp

namespace Starlite

theorem dictUpdate_nil {α : Type} (d : List (String × α)) : dictUpdate d [] = d :=
rfl

theorem dictUpdate_cons {α : Type} (d : List (String × α)) (p : String × α)
    (u : List (String × α)) :
    dictUpdate d (p :: u) = dictUpdate (dictSet d p.1 p.2) u :=
rfl

theorem find?_key_map_self {α : Type} (d : List (String × α)) (k : String)
    (v : α) (hany : d.any (fun p => p.1 = k) = true) :
    (d.map (fun p => if p.1 = k then (k, v) else p)).find? (fun p => p.1 = k) =
      Option.some (k, v) := by
  induction d with
  | nil => simp at hany
  | cons p d ih =>
    simp only [List.map_cons]
    by_cases hp : p.1 = k
    · rw [if_pos hp, List.find?_cons_of_pos _ (by simp)]
    · rw [if_neg hp, List.find?_cons_of_neg _ (by simp [hp])]
      apply ih
      simpa [List.any_cons, hp] using hany

theorem find?_key_append {α : Type} (d : List (String × α)) (k : String)
    (v : α) (hany : d.any (fun p => p.1 = k) = false) :
    (d ++ [(k, v)]).find? (fun p => p.1 = k) = Option.some (k, v) := by
  rw [List.find?_append]
  rw [List.any_eq_false] at hany
  have h1 : d.find? (fun p => p.1 = k) = Option.none :=
    List.find?_eq_none.mpr hany
  rw [h1]
  rw [List.find?_cons_of_pos _ (by simp)]
  rfl

theorem find?_key_map_ne {α : Type} (d : List (String × α)) (k0 k : String)
    (v : α) (hk : k ≠ k0) :
    (d.map (fun p => if p.1 = k0 then (k0, v) else p)).find? (fun p => p.1 = k) =
      d.find? (fun p => p.1 = k) := by
  induction d with
  | nil => rfl
  | cons p d ih =>
    simp only [List.map_cons]
    by_cases hp : p.1 = k0
    · rw [if_pos hp]
      rw [List.find?_cons_of_neg _ (by simp; exact fun h => hk h.symm),
        List.find?_cons_of_neg _ (by simp [hp]; exact fun h => hk h.symm), ih]
    · rw [if_neg hp]
      by_cases hpk : p.1 = k
      · rw [List.find?_cons_of_pos _ (by simp [hpk]),
          List.find?_cons_of_pos _ (by simp [hpk])]
      · rw [List.find?_cons_of_neg _ (by simp [hpk]),
          List.find?_cons_of_neg _ (by simp [hpk]), ih]

theorem dictGet_dictSet_self {α : Type} (d : List (String × α)) (k : String)
    (v : α) : dictGet (dictSet d k v) k = Option.some v := by
  unfold dictSet
  split
  next h => unfold dictGet; rw [find?_key_map_self d k v h]
  next h =>
    unfold dictGet
    rw [find?_key_append d k v (by simp only [Bool.not_eq_true] at h; exact h)]

theorem dictGet_dictSet_ne {α : Type} (d : List (String × α)) (k0 k : String)
    (v : α) (hk : k ≠ k0) : dictGet (dictSet d k0 v) k = dictGet d k := by
  unfold dictSet
  split
  next h => unfold dictGet; rw [find?_key_map_ne d k0 k v hk]
  next h =>
    unfold dictGet
    rw [List.find?_append]
    have h1 : ([(k0, v)] : List (String × α)).find? (fun p => p.1 = k) =
        Option.none := by
      rw [List.find?_cons_of_neg _ (by simp; exact fun h => hk h.symm)]
      rfl
    rw [h1]
    cases d.find? (fun p => p.1 = k) <;> rfl

theorem dictGet_dictUpdate_not_mem {α : Type} (d u : List (String × α))
    (k : String) (hk : k ∉ u.map Prod.fst) :
    dictGet (dictUpdate d u) k = dictGet d k := by
  induction u generalizing d with
  | nil => rfl
  | cons p u ih =>
    simp only [List.map_cons, List.mem_cons] at hk
    push_neg at hk
    rw [dictUpdate_cons]
    rw [ih (dictSet d p.1 p.2) hk.2]
    exact dictGet_dictSet_ne d p.1 k p.2 hk.1

theorem dictGet_dictUpdate_mem {α : Type} (d u : List (String × α))
    (k : String) (v : α) (hnodup : (u.map Prod.fst).Nodup)
    (hmem : (k, v) ∈ u) :
    dictGet (dictUpdate d u) k = Option.some v := by
  induction u generalizing d with
  | nil => cases hmem
  | cons p u ih =>
    rw [List.map_cons, List.nodup_cons] at hnodup
    rw [dictUpdate_cons]
    rcases List.mem_cons.mp hmem with heq | hmem2
    · subst heq
      rw [dictGet_dictUpdate_not_mem _ _ _ hnodup.1]
      exact dictGet_dictSet_self d k v
    · exact ih (dictSet d p.1 p.2) hnodup.2 hmem2

end Starlite

namespace Starlite

theorem on_app_init_ret (self : AbstractSecurityConfig) (cfg : AppConfig) :
    (on_app_init self cfg).ret = (on_app_init self cfg).app_config :=
rfl

theorem on_app_init_app_config_eq (self : AbstractSecurityConfig)
    (cfg : AppConfig) :
    (on_app_init self cfg).app_config =
      { middleware := self.middleware :: cfg.middleware
        openapi_config := cfg.openapi_config.map (mergeOpenAPIConfig self)
        guards := cfg.guards ++ self.guards.getD []
        dependencies := dictUpdate cfg.dependencies (self.dependencies.getD [])
        route_handlers := cfg.route_handlers ++ self.route_handlers.getD []
        type_encoders := cfg.type_encoders
        rest := cfg.rest } := by
  obtain ⟨amc, g, ex, eok, sc, rh, dep, ruh, te, ocs, sr, mw⟩ := self
  obtain ⟨cmw, coc, cg, cd, crh, cte, cr⟩ := cfg
  cases coc <;>
    rcases g with _ | (_ | ⟨g0, gl⟩) <;>
    rcases dep with _ | (_ | ⟨d0, dl⟩) <;>
    rcases rh with _ | (_ | ⟨r0, rl⟩) <;>
    simp [on_app_init, truthyOptList, dictUpdate]

theorem on_app_init_self_eq (self : AbstractSecurityConfig) (cfg : AppConfig) :
    (on_app_init self cfg).self =
      if self.type_encoders.isNone
      then { self with type_encoders := cfg.type_encoders }
      else self := by
  have h1 : (on_app_init self cfg).self =
      if self.type_encoders.isNone
      then { self with
              type_encoders := (on_app_init self cfg).app_config.type_encoders }
      else self := rfl
  rw [h1, on_app_init_app_config_eq]

end Starlite

namespace Starlite

/-- Claim C1: for every `AppConfig` passed to it, `on_app_init` inserts the
security config's middleware at index 0 of `app_config.middleware`, so it
precedes every previously registered middleware, and returns the very same
`AppConfig` it received (the returned value is the final state of the mutated
argument). -/
theorem on_app_init_inserts_middleware_and_returns_argument
    (self : AbstractSecurityConfig) (cfg : AppConfig) :
    (on_app_init self cfg).ret = (on_app_init self cfg).app_config ∧
    (on_app_init self cfg).app_config.middleware =
      self.middleware :: cfg.middleware := by
  refine ⟨rfl, ?_⟩
  rw [on_app_init_app_config_eq]

/-- Claim C2: when `app_config.openapi_config` is set, `on_app_init` replaces
it with a copy (`rest` preserved) whose `components` has the config's
`openapi_components` appended when it was a list, becomes `[new, old]` when it
was a single truthy value, and becomes `[new]` otherwise, and whose `security`
has `security_requirement` appended when it was a list and becomes the
singleton `[security_requirement]` otherwise. -/
theorem on_app_init_merges_openapi_config (self : AbstractSecurityConfig)
    (cfg : AppConfig) (oc : OpenAPIConfig)
    (h : cfg.openapi_config = Option.some oc) :
    ∃ oc2,
      (on_app_init self cfg).app_config.openapi_config = Option.some oc2 ∧
      oc2.rest = oc.rest ∧
      (∀ cs, oc.components = ComponentsField.list cs →
        oc2.components =
          ComponentsField.list (cs ++ [self.openapi_components])) ∧
      (∀ c, oc.components = ComponentsField.single c →
        oc2.components = ComponentsField.list [self.openapi_components, c]) ∧
      (oc.components = ComponentsField.none →
        oc2.components = ComponentsField.list [self.openapi_components]) ∧
      (∀ l, oc.security = Option.some l →
        oc2.security = Option.some (l ++ [self.security_requirement])) ∧
      (oc.security = Option.none →
        oc2.security = Option.some [self.security_requirement]) := by
  refine ⟨mergeOpenAPIConfig self oc, ?_, rfl, ?_, ?_, ?_, ?_, ?_⟩
  · rw [on_app_init_app_config_eq]
    show cfg.openapi_config.map (mergeOpenAPIConfig self) =
      Option.some (mergeOpenAPIConfig self oc)
    rw [h]
    rfl
  · intro cs hcs
    simp [mergeOpenAPIConfig, hcs]
  · intro c hc
    simp [mergeOpenAPIConfig, hc]
  · intro hn
    simp [mergeOpenAPIConfig, hn]
  · intro l hl
    simp [mergeOpenAPIConfig, hl]
  · intro hn
    simp [mergeOpenAPIConfig, hn]

/-- Witness for C2 at a concrete security config and app config whose OpenAPI
config holds a single `components` object and no `security` list. -/
theorem on_app_init_merges_openapi_config_witness :
    sampleAppConfig.openapi_config = Option.some sampleOpenAPIConfig ∧
    ∃ oc2,
      (on_app_init sampleSecurityConfig
          sampleAppConfig).app_config.openapi_config = Option.some oc2 ∧
      oc2.components = ComponentsField.list [⟨3⟩, ⟨9⟩] ∧
      oc2.security = Option.some [[("jwt", [])]] := by
  obtain ⟨oc2, h1, hrest, hlist, hsingle, hnone, hsec, hsecn⟩ :=
    on_app_init_merges_openapi_config sampleSecurityConfig sampleAppConfig
      sampleOpenAPIConfig rfl
  exact ⟨rfl, oc2, h1, hsingle ⟨9⟩ rfl, hsecn rfl⟩

/-- Claim C3: when the config's `dependencies` dictionary is non-`None` and
non-empty, `on_app_init` merges it into `app_config.dependencies`: every key
of `self.dependencies` afterwards maps to the config's provider, every other
key keeps its original provider; when it is `None` or empty the app config's
dictionary is unchanged. -/
theorem on_app_init_merges_dependencies (self : AbstractSecurityConfig)
    (cfg : AppConfig)
    (hnodup : ((self.dependencies.getD []).map Prod.fst).Nodup) :
    (∀ k v, (k, v) ∈ self.dependencies.getD [] →
      dictGet (on_app_init self cfg).app_config.dependencies k =
        Option.some v) ∧
    (∀ k, k ∉ (self.dependencies.getD []).map Prod.fst →
      dictGet (on_app_init self cfg).app_config.dependencies k =
        dictGet cfg.dependencies k) ∧
    (truthyOptList self.dependencies = false →
      (on_app_init self cfg).app_config.dependencies = cfg.dependencies) := by
  rw [on_app_init_app_config_eq]
  refine ⟨?_, ?_, ?_⟩
  · intro k v hm
    exact dictGet_dictUpdate_mem _ _ _ _ hnodup hm
  · intro k hk
    exact dictGet_dictUpdate_not_mem _ _ _ hk
  · intro hf
    show dictUpdate cfg.dependencies (self.dependencies.getD []) =
      cfg.dependencies
    rcases hdep : self.dependencies with _ | l
    · rfl
    · rw [hdep] at hf
      have hl : l = [] := by simpa [truthyOptList] using hf
      rw [hl]
      rfl

/-- Witness for C3 at a concrete config carrying the dependency
`"db" -> Provide 7`. -/
theorem on_app_init_merges_dependencies_witness :
    dictGet
      (on_app_init sampleSecurityConfig sampleAppConfig).app_config.dependencies
      "db" = Option.some ⟨7⟩ :=
  (on_app_init_merges_dependencies sampleSecurityConfig sampleAppConfig
    (by decide)).1 "db" ⟨7⟩ (by decide)

/-- Claim C4: `on_app_init` appends the config's guards and route handlers, in
order, to the end of the corresponding `AppConfig` lists, preserving all
previously registered entries; a `None` or empty field appends nothing. -/
theorem on_app_init_appends_guards_and_route_handlers
    (self : AbstractSecurityConfig) (cfg : AppConfig) :
    (on_app_init self cfg).app_config.guards =
      cfg.guards ++ self.guards.getD [] ∧
    (on_app_init self cfg).app_config.route_handlers =
      cfg.route_handlers ++ self.route_handlers.getD [] := by
  rw [on_app_init_app_config_eq]
  exact ⟨rfl, rfl⟩

/-- Claim C5: `__post_init__` replaces `retrieve_user_handler` with that same
callable wrapped in `AsyncCallable`, whether the user supplied a sync or an
async callable. -/
theorem post_init_wraps_retrieve_user_handler (self : AbstractSecurityConfig)
    (f : UserCallable)
    (h : self.retrieve_user_handler = StoredHandler.raw f) :
    (post_init self).retrieve_user_handler =
      StoredHandler.asyncCallable (StoredHandler.raw f) := by
  show StoredHandler.asyncCallable self.retrieve_user_handler = _
  rw [h]

/-- Witness for C5 at a concrete config whose user handler is a sync
callable. -/
theorem post_init_wraps_retrieve_user_handler_witness :
    sampleSecurityConfig.retrieve_user_handler =
      StoredHandler.raw (UserCallable.sync 5) ∧
    (post_init sampleSecurityConfig).retrieve_user_handler =
      StoredHandler.asyncCallable (StoredHandler.raw (UserCallable.sync 5)) :=
  ⟨rfl, post_init_wraps_retrieve_user_handler sampleSecurityConfig
    (UserCallable.sync 5) rfl⟩

/-- Claim C9: `on_app_init` modifies no `AppConfig` fields other than
`middleware`, `openapi_config`, `guards`, `dependencies` and `route_handlers`:
`type_encoders` and all remaining fields are untouched, and a `None`
`openapi_config` stays `None`. -/
theorem on_app_init_frame (self : AbstractSecurityConfig) (cfg : AppConfig) :
    (on_app_init self cfg).app_config.type_encoders = cfg.type_encoders ∧
    (on_app_init self cfg).app_config.rest = cfg.rest ∧
    ((on_app_init self cfg).app_config.openapi_config).isNone =
      (cfg.openapi_config).isNone := by
  rw [on_app_init_app_config_eq]
  refine ⟨rfl, rfl, ?_⟩
  cases cfg.openapi_config <;> rfl

/-- Claim C10: `on_app_init` mutates the security config only by setting
`type_encoders` to `app_config.type_encoders` when it was `None` (leaving the
config entirely unchanged otherwise), and `create_response` always passes the
stored `type_encoders` into the response it builds. -/
theorem on_app_init_self_mutation_and_create_response
    (self : AbstractSecurityConfig) (cfg : AppConfig) :
    (on_app_init self cfg).self =
      (if self.type_encoders.isNone
       then { self with type_encoders := cfg.type_encoders }
       else self) ∧
    ∀ (content : Option Nat) (status_code : Nat) (media_type : String)
      (headers : Option (List (String × String)))
      (cookies : Option (List String)),
      (create_response self content status_code media_type headers
        cookies).type_encoders = self.type_encoders :=
  ⟨on_app_init_self_eq self cfg, fun _ _ _ _ _ => rfl⟩

end Starlite

namespace TodoApp

theorem run_title_query (name : String) (store : List TodoItem) :
    Query.run { selectTodo with whereTitle := Option.some name } store =
      store.filter (fun t => t.title = name) := by
  unfold Query.run
  congr 1
  funext t
  simp [Query.matches, selectTodo]

theorem filter_title_nil (name : String) (store : List TodoItem)
    (h : ∀ t ∈ store, t.title ≠ name) :
    store.filter (fun t => t.title = name) = [] := by
  rw [List.filter_eq_nil_iff]
  intro t ht
  simpa using h t ht

theorem filter_title_single (name : String) (store : List TodoItem)
    (t : TodoItem) (hnodup : (store.map TodoItem.title).Nodup)
    (ht : t ∈ store) (htitle : t.title = name) :
    store.filter (fun x => x.title = name) = [t] := by
  induction store with
  | nil => cases ht
  | cons p store ih =>
    rw [List.map_cons, List.nodup_cons] at hnodup
    rcases List.mem_cons.mp ht with rfl | htl
    · rw [List.filter_cons_of_pos (by simpa using htitle)]
      have hrest : store.filter (fun x => x.title = name) = [] := by
        apply filter_title_nil
        intro x hx hxeq
        exact hnodup.1 (htitle ▸ hxeq ▸ List.mem_map_of_mem TodoItem.title hx)
      rw [hrest]
    · by_cases hp : p.title = name
      · exfalso
        apply hnodup.1
        rw [hp, ← htitle]
        exact List.mem_map_of_mem TodoItem.title htl
      · rw [List.filter_cons_of_neg (by simpa using hp)]
        exact ih hnodup.2 htl

theorem get_todo_by_title_eq (name : String) (store : List TodoItem) :
    get_todo_by_title name store =
      match scalar_one (store.filter (fun t => t.title = name)) with
      | Except.ok t => Except.ok t
      | Except.error DBError.noResultFound =>
          Except.error
            (AppExc.notFound ("TODO " ++ pyRepr name ++ " not found"))
      | Except.error e => Except.error (AppExc.db e) := by
  simp only [get_todo_by_title]
  rw [run_title_query]

end TodoApp

namespace TodoApp

/-- Claim C6: with unique titles in the store (the primary-key invariant),
`get_todo_by_title` raises `NotFoundException` with detail
`TODO {title!r} not found` exactly when no `TodoItem` with the given title
exists, returns the unique matching item otherwise, and `update_item`
propagates the same exception. -/
theorem get_todo_by_title_not_found_iff (name : String)
    (store : List TodoItem) (hnodup : (store.map TodoItem.title).Nodup) :
    ((∀ t ∈ store, t.title ≠ name) →
      get_todo_by_title name store =
        Except.error
          (AppExc.notFound ("TODO " ++ pyRepr name ++ " not found"))) ∧
    (∀ t ∈ store, t.title = name →
      get_todo_by_title name store = Except.ok t) ∧
    (∀ e, get_todo_by_title name store = Except.error e →
      (∀ t ∈ store, t.title ≠ name) ∧
        e = AppExc.notFound ("TODO " ++ pyRepr name ++ " not found")) ∧
    (∀ data : TodoData, (∀ t ∈ store, t.title ≠ name) →
      update_item name data store =
        Except.error
          (AppExc.notFound ("TODO " ++ pyRepr name ++ " not found"))) := by
  have hnil : (∀ t ∈ store, t.title ≠ name) →
      get_todo_by_title name store =
        Except.error
          (AppExc.notFound ("TODO " ++ pyRepr name ++ " not found")) := by
    intro h
    rw [get_todo_by_title_eq, filter_title_nil name store h]
    rfl
  have hok : ∀ t ∈ store, t.title = name →
      get_todo_by_title name store = Except.ok t := by
    intro t ht htitle
    rw [get_todo_by_title_eq, filter_title_single name store t hnodup ht htitle]
    rfl
  refine ⟨hnil, hok, ?_, ?_⟩
  · intro e he
    by_cases hex : ∀ t ∈ store, t.title ≠ name
    · refine ⟨hex, ?_⟩
      rw [hnil hex] at he
      injection he with h2
      exact h2.symm
    · exfalso
      push_neg at hex
      obtain ⟨t, ht, htitle⟩ := hex
      rw [hok t ht htitle] at he
      cases he
  · intro data h
    unfold update_item
    rw [hnil h]

end TodoApp

namespace TodoApp

/-- Witness for C6 at a concrete store that holds no item titled `read`. -/
theorem get_todo_by_title_not_found_iff_witness :
    get_todo_by_title "read" sampleStore =
      Except.error
        (AppExc.notFound ("TODO " ++ pyRepr "read" ++ " not found")) :=
  (get_todo_by_title_not_found_iff "read" sampleStore (by decide)).1
    (by decide)

/-- Claim C7: `provide_transaction` turns every `IntegrityError` raised while
the transaction is open into a `ClientException` with status code
`HTTP_409_CONFLICT` (409) and the string form of the original error as its
detail, chaining the original exception as the cause; other outcomes are not
translated. -/
theorem provide_transaction_translates_integrity_error (msg : String) :
    provide_transaction (TxOutcome.integrityError msg) =
      TxResult.raised (Option.some HTTP_409_CONFLICT) msg (Option.some msg) ∧
    HTTP_409_CONFLICT = 409 ∧
    provide_transaction TxOutcome.success = TxResult.committed ∧
    ∀ m2, provide_transaction (TxOutcome.otherError m2) =
      TxResult.raised Option.none m2 Option.none :=
  ⟨rfl, rfl, rfl, fun _ => rfl⟩

/-- Claim C8: `get_todo_list` with `done = None` returns every stored item and
with `done = b` exactly those whose flag equals `b`; the `GET /` handler
returns these items serialized as dictionaries with exactly the keys `title`
and `done`. -/
theorem get_todo_list_filters_and_get_list_serializes (done : Option Bool)
    (store : List TodoItem) :
    get_todo_list Option.none store = store ∧
    (∀ b, get_todo_list (Option.some b) store =
      store.filter (fun t => t.done = b)) ∧
    get_list done store = (get_todo_list done store).map serialize_todo ∧
    ∀ d ∈ get_list done store, d.map Prod.fst = ["title", "done"] := by
  refine ⟨?_, ?_, rfl, ?_⟩
  · simp [get_todo_list, Query.run, Query.matches, selectTodo]
  · intro b
    have h1 : get_todo_list (Option.some b) store =
        store.filter
          (Query.matches
            { whereTitle := Option.none, whereDone := Option.some b }) := rfl
    rw [h1]
    have h2 : Query.matches
        { whereTitle := Option.none, whereDone := Option.some b } =
        fun t => decide (t.done = b) := by
      funext t
      simp [Query.matches]
    rw [h2]
  · intro d hd
    simp only [get_list, List.mem_map] at hd
    obtain ⟨t, ht, rfl⟩ := hd
    rfl

/-- Witness for C8 at the concrete sample store, checking the serialized keys
of a member of the returned collection. -/
theorem get_todo_list_filters_and_get_list_serializes_witness :
    (serialize_todo ⟨"buy milk", false⟩).map Prod.fst = ["title", "done"] :=
  (get_todo_list_filters_and_get_list_serializes Option.none sampleStore).2.2.2
    (serialize_todo ⟨"buy milk", false⟩) (by decide)

end TodoApp
